import Mathlib

/-!
# Verification of the chibivue_study renderer

Shallow embedding of the virtual-node diff/patch engine of this repository.

The engine is mirrored from two source files:
* `src/unnamed/part_000` — the later renderer (`createRenderer`), namespace `Chibivue`;
* `src/packages/runtime-core/renderer.ts` — the earlier renderer, namespace `Chibivue.Early`.

Host-side mutation is modelled by explicit state passing: every engine function
returns the updated value, the updated host state and the list of host-adapter
calls it performed, in order.  Host nodes are identified by natural numbers
handed out by a fresh-id counter; a VNode's `el` back-reference is an
`Option Nat` (`none` = the field is still unset, i.e. JS `undefined`).
Child arrays are a dedicated list type `VNodeList`, mutually inductive with
`VNode`, so that the engine's recursion is structural.
-/

namespace Chibivue

/-- A reference to a host node. `none` models a JS `null`/`undefined`
reference (e.g. an `el` field that was never assigned). -/
abbrev Ref := Option Nat

/-- A prop set: association list from prop key to value, in the object's key
iteration order (JS string-keyed objects iterate in insertion order, and an
object literal has no duplicate keys). The source stores `null` for absent
props; iterating `null` with `for..in` visits nothing, so the empty list also
models the `null` prop set. -/
abbrev Props := List (String × String)

/-- One call to the host adapter (`RendererOptions` of part_000): the engine
calls exactly `createElement`, `createText`, `setText`, `insert` and
`patchProp` (plus the query `parentNode`, modelled on `Host`); the contract
has no remove/detach operation, and `setElementText` is declared but never
called by either renderer. -/
inductive HostOp where
  | createElement (id : Nat) (tag : String)
  | createText (id : Nat) (content : String)
  | setText (node : Ref) (content : String)
  | insert (child : Ref) (parent : Ref)
  | patchProp (el : Ref) (key : String) (value : String)
  deriving DecidableEq, Repr

/-- Host-side state: the fresh-id counter and the child-to-parent relation
recorded by `insert`, which backs the `parentNode` query of the adapter. -/
structure Host where
  nextId : Nat
  parentOf : List (Ref × Ref)
  deriving DecidableEq, Repr

/-- The host adapter's `parentNode` query: parent of a node per the most
recent `insert` recording it, `null` when unknown. -/
def Host.parentNode (h : Host) (n : Ref) : Ref :=
  match h.parentOf.lookup n with
  | some p => p
  | none => none

/-- `createText` host call: returns a fresh node id. -/
def hostCreateText (content : String) (h : Host) : Nat × Host × List HostOp :=
  (h.nextId, { h with nextId := h.nextId + 1 }, [.createText h.nextId content])

/-- `createElement` host call: returns a fresh element id. -/
def hostCreateElement (tag : String) (h : Host) : Nat × Host × List HostOp :=
  (h.nextId, { h with nextId := h.nextId + 1 }, [.createElement h.nextId tag])

/-- `insert` host call: records the parent of the inserted child. -/
def hostInsert (child parent : Ref) (h : Host) : Host × List HostOp :=
  ({ h with parentOf := (child, parent) :: h.parentOf }, [.insert child parent])

mutual

/-- A virtual node, as diffed by the renderers (`src/.../vnode.ts` is not in
the source tree; its shape is fixed by how the two renderers consume it):

* `raw s` — an unnormalized raw child value (a bare string in a child array);
* `text content el` — a `Text`-type VNode (`children` holds the payload);
* `elem tag props children el` — a string-tag element VNode.

Component-typed VNodes are handled by the separate instance layer below. -/
inductive VNode where
  | raw (s : String)
  | text (content : String) (el : Ref)
  | elem (tag : String) (props : Props) (children : VNodeList) (el : Ref)

/-- A child array of VNodes (a plain list, kept mutually inductive with
`VNode` so the engine's recursion over trees is structural). -/
inductive VNodeList where
  | nil
  | cons (head : VNode) (tail : VNodeList)

end

/-- Conversion from an ordinary list. -/
def VNodeList.ofList : List VNode → VNodeList
  | [] => .nil
  | c :: cs => .cons c (ofList cs)

/-- Conversion to an ordinary list. -/
def VNodeList.toList : VNodeList → List VNode
  | .nil => []
  | .cons c cs => c :: cs.toList

/-- The first child, when any (JS `c1[0]` reads `undefined` past the end). -/
def VNodeList.head? : VNodeList → Option VNode
  | .nil => none
  | .cons c _ => some c

/-- All children but the first (of the empty array: the empty array). -/
def VNodeList.rest : VNodeList → VNodeList
  | .nil => .nil
  | .cons _ t => t

/-- Indexing, JS style: `l.get? i` is `undefined` (`none`) past the end. -/
def VNodeList.get? : VNodeList → Nat → Option VNode
  | .nil, _ => none
  | .cons c _, 0 => some c
  | .cons _ t, i + 1 => t.get? i

/-- Number of children. -/
def VNodeList.length : VNodeList → Nat
  | .nil => 0
  | .cons _ t => t.length + 1

/-- The first `n` children. -/
def VNodeList.take : Nat → VNodeList → VNodeList
  | 0, _ => .nil
  | _, .nil => .nil
  | n + 1, .cons c t => .cons c (take n t)

/-- Pair every child with its index, starting from `i`. -/
def VNodeList.enumFrom (i : Nat) : VNodeList → List (Nat × VNode)
  | .nil => []
  | .cons c t => (i, c) :: t.enumFrom (i + 1)

/-- Pair every child with its index. -/
def VNodeList.enum (l : VNodeList) : List (Nat × VNode) :=
  l.enumFrom 0

/-- Modelled from the spec: `normalizeVNode` (its defining file
`src/packages/runtime-core/vnode.ts` is absent from the source tree; the spec
says raw strings and bare values become Text-type VNodes, and an
already-formed VNode is left as is). -/
def normalizeVNode : VNode → VNode
  | .raw s => .text s none
  | v => v

/-- The `el` field of a VNode (`undefined`, i.e. `none`, when never assigned;
a raw string value has no `el` property at all, which also reads as
`undefined`). -/
def VNode.el : VNode → Ref
  | .raw _ => none
  | .text _ e => e
  | .elem _ _ _ e => e

/-- The `props` field of a VNode (`null`/absent modelled as the empty set). -/
def VNode.propsOf : VNode → Props
  | .elem _ p _ _ => p
  | _ => []

/-- The `children` field of a VNode read at type `VNode[]`, as both renderers
do in `patchChildren`. For an element this is its child array. For a text
node (or a raw string) the JS value is a string, and indexing a string yields
its single-character substrings — modelled by splitting into raw
one-character children. (That case is only reachable when a patch pairs an
old text node against a new element, which none of the verified scenarios
do.) -/
def VNode.childList : VNode → VNodeList
  | .elem _ _ cs _ => cs
  | .text s _ => .ofList (s.toList.map (fun c => VNode.raw (String.mk [c])))
  | .raw s => .ofList (s.toList.map (fun c => VNode.raw (String.mk [c])))

/-- The JS comparison `n2.children !== n1.children` of `processText`,
negated: string payloads compare by value under `===`; values of different
shapes compare unequal; two distinct arrays compare unequal (reference
inequality — every render builds fresh arrays); two raw `undefined` children
fields compare equal. -/
def sameChildren : VNode → VNode → Bool
  | .raw _, .raw _ => true
  | .text s _, .text t _ => s == t
  | _, _ => false

/-- The text payload of a VNode (`n2.children as string` in `processText`,
where `n2` always is a Text VNode). -/
def VNode.textPayload : VNode → String
  | .text s _ => s
  | .raw s => s
  | .elem _ _ _ _ => ""

/-- `processText` of part_000 (character-identical in renderer.ts): on first
mount (`n1 == null`, a loose test that also catches `undefined`) create a
host text node and insert it into the container; on patch, carry the `el`
forward and call the host's `setText` only when the payloads differ. -/
def processText (n1 : Option VNode) (n2 : VNode) (container : Ref) (h : Host) :
    VNode × Host × List HostOp :=
  match n1 with
  | none =>
      let r := hostCreateText n2.textPayload h
      let r2 := hostInsert (some r.1) container r.2.1
      (VNode.text n2.textPayload (some r.1), r2.1, r.2.2 ++ r2.2)
  | some m =>
      let el := m.el
      if sameChildren m n2 then
        (VNode.text n2.textPayload el, h, [])
      else
        (VNode.text n2.textPayload el, h, [HostOp.setText el n2.textPayload])

/-- The prop loop of `patchElement`:
`for key in props: if (props[key] !== n1.props?.[key] ?? {}) hostPatchProp`.
Note on the source condition: `!==` binds tighter than the nullish-coalescing
operator, so it reads `(props[key] !== n1.props?.[key]) ?? \x7b\x7d`; the
left operand is a boolean and never nullish, so the condition is exactly the
inequality: patchProp fires iff the old prop set's value at the key differs
(an absent key reads as `undefined` and so differs from every value). -/
def patchProps (el : Ref) (oldProps newProps : Props) : List HostOp :=
  match newProps with
  | [] => []
  | (k, v) :: rest =>
      (if oldProps.lookup k = some v then [] else [HostOp.patchProp el k v])
        ++ patchProps el oldProps rest

mutual

/-- `patch` of part_000: dispatch on `n2.type` — the Text marker goes to
`processText`, a string tag to the element path, an object type to the
component layer (the separate instance layer below; no case of this
three-constructor VNode type reaches it). A raw string value matches none of
the branches (a string's `type` property is `undefined`), so `patch` on it
does nothing, exactly as in the source; callers normalize children before
calling `patch`. So that the recursion is structural, the bodies of
`processElement`, `mountElement` and `patchElement` are inlined in the
element branch; the standalone source-shaped functions of those names follow
this block, and the lemmas `patch_text_arm` / `patch_elem_arm` state that
`patch` agrees with them arm by arm. -/
def patch (n1 : Option VNode) (n2 : VNode) (container : Ref) (h : Host) :
    VNode × Host × List HostOp :=
  match n2 with
  | .text s e => processText n1 (.text s e) container h
  | .elem tag props children _ =>
      match n1 with
      | none =>
          -- mountElement
          let r := hostCreateElement tag h
          let rc := mountChildren children (some r.1) r.2.1
          let propOps := props.map (fun kv => HostOp.patchProp (some r.1) kv.1 kv.2)
          let ri := hostInsert (some r.1) container rc.2.1
          (VNode.elem tag props rc.1 (some r.1), ri.1,
            r.2.2 ++ rc.2.2 ++ propOps ++ ri.2)
      | some m =>
          -- patchElement
          let el := m.el
          let rc := patchChildren m.childList children el h
          let propOps := patchProps el m.propsOf props
          (VNode.elem tag props rc.1 el, rc.2.1, rc.2.2 ++ propOps)
  | .raw s => (.raw s, h, [])

/-- `mountChildren` of part_000: for each child in order, normalize it in
place and `patch(null, child, container)`. `normalizeVNode` is inlined on the
raw case (a normalized raw value is a Text VNode, which `patch` sends
straight to `processText`); the lemma `mountChildren_cons` below re-states
the step exactly as the source writes it. -/
def mountChildren (children : VNodeList) (container : Ref) (h : Host) :
    VNodeList × Host × List HostOp :=
  match children with
  | .nil => (.nil, h, [])
  | .cons c cs =>
      let r :=
        match c with
        | .raw s => processText none (.text s none) container h
        | c => patch none c container h
      let rs := mountChildren cs container r.2.1
      (.cons r.1 rs.1, rs.2.1, r.2.2 ++ rs.2.2)

/-- `patchChildren` of part_000: `for i` over the indices of the new child
list `c2`, normalize `c2[i]` in place and `patch(c1[i], c2[i], container)`.
The index walk is realized by consuming both lists in step: at each step the
current old child `c1[i]` is the head of the remaining old children (reading
past the end of `c1` yields `none`, JS `undefined`), and `normalizeVNode` is
inlined on the raw case as in `mountChildren`. The lemmas
`patchChildren_cons` and `patchChildren_eq_positional` below re-state this
definition in the source's indexed form. -/
def patchChildren (c1 c2 : VNodeList) (container : Ref) (h : Host) :
    VNodeList × Host × List HostOp :=
  match c2 with
  | .nil => (.nil, h, [])
  | .cons c cs =>
      let r :=
        match c with
        | .raw s => processText c1.head? (.text s none) container h
        | c => patch c1.head? c container h
      let rs := patchChildren c1.rest cs container r.2.1
      (.cons r.1 rs.1, rs.2.1, r.2.2 ++ rs.2.2)

end

/-- `mountElement` of part_000: create the host element, mount the normalized
children into it, apply every prop in key iteration order, then insert the
element into the container. The non-element case is unreachable
(`processElement` only ever receives element VNodes) and is a no-op here. -/
def mountElement (vnode : VNode) (container : Ref) (h : Host) :
    VNode × Host × List HostOp :=
  match vnode with
  | .elem tag props children _ =>
      let r := hostCreateElement tag h
      let rc := mountChildren children (some r.1) r.2.1
      let propOps := props.map (fun kv => HostOp.patchProp (some r.1) kv.1 kv.2)
      let ri := hostInsert (some r.1) container rc.2.1
      (VNode.elem tag props rc.1 (some r.1), ri.1,
        r.2.2 ++ rc.2.2 ++ propOps ++ ri.2)
  | v => (v, h, [])

/-- `patchElement` of part_000: carry the host element forward
(`el = n2.el = n1.el`), patch the children (with that element as the
container), then run the prop loop against the old props. The non-element
case is unreachable from `patch` and is a no-op here. -/
def patchElement (n1 : VNode) (n2 : VNode) (h : Host) :
    VNode × Host × List HostOp :=
  match n2 with
  | .elem tag props children _ =>
      let el := n1.el
      let rc := patchChildren n1.childList children el h
      let propOps := patchProps el n1.propsOf props
      (VNode.elem tag props rc.1 el, rc.2.1, rc.2.2 ++ propOps)
  | v => (v, h, [])

/-- `processElement` of part_000: mount when `n1 === null`, else patch. (The
strict test does not catch JS `undefined`; this embedding's `none` stands for
both — see `patchChildren`.) -/
def processElement (n1 : Option VNode) (n2 : VNode) (container : Ref) (h : Host) :
    VNode × Host × List HostOp :=
  match n1 with
  | none => mountElement n2 container h
  | some m => patchElement m n2 h

namespace Early

/-!
The earlier renderer, `src/packages/runtime-core/renderer.ts`. Its
`processText`, `mountElement`, `mountChildren`, `patchElement` and
`patchChildren` are character-identical to part_000 (the non-recursive
`processText` and the prop loop are therefore shared); the difference is the
dispatch in `patch`: `if (type === Text) processText else processElement` —
there is no component branch, and every non-Text node, a raw value included,
falls to `processElement`. Its `RendererOptions` also lacks the `parentNode`
query (the `Host` state is unchanged; `parentNode` is simply never consulted
here).
-/

mutual

/-- `patch` of renderer.ts: the Text marker goes to `processText`, everything
else — including a raw value, whose `type` is `undefined` — to
`processElement`. The element bodies are inlined exactly as in the part_000
embedding. On a raw value, `processElement` falls through to the no-op
non-element fallback of `mountElement`/`patchElement` (in JS this branch,
which no normalizing caller reaches, would fault calling `createElement` on
an undefined tag). -/
def patch (n1 : Option VNode) (n2 : VNode) (container : Ref) (h : Host) :
    VNode × Host × List HostOp :=
  match n2 with
  | .text s e => processText n1 (.text s e) container h
  | .elem tag props children _ =>
      match n1 with
      | none =>
          -- mountElement
          let r := hostCreateElement tag h
          let rc := mountChildren children (some r.1) r.2.1
          let propOps := props.map (fun kv => HostOp.patchProp (some r.1) kv.1 kv.2)
          let ri := hostInsert (some r.1) container rc.2.1
          (VNode.elem tag props rc.1 (some r.1), ri.1,
            r.2.2 ++ rc.2.2 ++ propOps ++ ri.2)
      | some m =>
          -- patchElement
          let el := m.el
          let rc := patchChildren m.childList children el h
          let propOps := patchProps el m.propsOf props
          (VNode.elem tag props rc.1 el, rc.2.1, rc.2.2 ++ propOps)
  | .raw s =>
      -- processElement on a raw value: both mountElement and patchElement
      -- hit their non-element fallback
      match n1 with
      | none => (.raw s, h, [])
      | some _ => (.raw s, h, [])

/-- `mountChildren` of renderer.ts (same text as part_000). -/
def mountChildren (children : VNodeList) (container : Ref) (h : Host) :
    VNodeList × Host × List HostOp :=
  match children with
  | .nil => (.nil, h, [])
  | .cons c cs =>
      let r :=
        match c with
        | .raw s => processText none (.text s none) container h
        | c => patch none c container h
      let rs := mountChildren cs container r.2.1
      (.cons r.1 rs.1, rs.2.1, r.2.2 ++ rs.2.2)

/-- `patchChildren` of renderer.ts (same text as part_000). -/
def patchChildren (c1 c2 : VNodeList) (container : Ref) (h : Host) :
    VNodeList × Host × List HostOp :=
  match c2 with
  | .nil => (.nil, h, [])
  | .cons c cs =>
      let r :=
        match c with
        | .raw s => processText c1.head? (.text s none) container h
        | c => patch c1.head? c container h
      let rs := patchChildren c1.rest cs container r.2.1
      (.cons r.1 rs.1, rs.2.1, r.2.2 ++ rs.2.2)

end

end Early

/-- The spec's index formulation of child reconciliation, inner walk: for
each (index, new child) pair in sequence, normalize the new child and patch
it against the old child at the same index (`c1.get? i` — out of range reads
as JS `undefined`), threading the host state left-to-right. -/
def positionalGo (c1 : VNodeList) (ics : List (Nat × VNode)) (container : Ref)
    (h : Host) : VNodeList × Host × List HostOp :=
  match ics with
  | [] => (.nil, h, [])
  | (i, c) :: rest =>
      let r := patch (c1.get? i) (normalizeVNode c) container h
      let rs := positionalGo c1 rest container r.2.1
      (.cons r.1 rs.1, rs.2.1, r.2.2 ++ rs.2.2)

/-- The spec's index formulation of child reconciliation: walk the indices of
the new child list in increasing order; at index `i`, patch the normalized
new child `c2[i]` against the old child `c1[i]` at the very same index —
never against any other old child. -/
def positionalPatch (c1 c2 : VNodeList) (container : Ref) (h : Host) :
    VNodeList × Host × List HostOp :=
  positionalGo c1 c2.enum container h

mutual

/-- Structural side condition for the refinement claim: every node of the
tree is a Text VNode or a string-tag element — no raw (unnormalized) values,
no components. -/
def VNode.noRaw : VNode → Bool
  | .raw _ => false
  | .text _ _ => true
  | .elem _ _ cs _ => cs.noRaw

/-- `VNode.noRaw` on every entry of a child array. -/
def VNodeList.noRaw : VNodeList → Bool
  | .nil => true
  | .cons c t => c.noRaw && t.noRaw

end

/-!
## Component layer (part_000)

`component.ts`, `componentProps.ts` and the reactivity module are not in the
source tree; their pieces (`ComponentInternalInstance`,
`createComponentInstance`, `initProps`, `updateProps`, `ReactiveEffect`) are
modelled from the spec, each marked so. The lifecycle functions
(`mountComponent`, `setupRenderEffect`'s `componentUpdateFn`,
`updateComponent`) are translated from part_000.
-/

/-- The render function returned by a component's `setup`
(`InternalRenderFunction`). In the source it is a zero-argument closure
reading the instance's reactively tracked, in-place-mutated props; here it
receives the current props explicitly. -/
abbrev RenderFn := Props → VNode

/-- Modelled from the spec: a component definition (`Component` of the
absent component.ts) — an optional `setup` taking the resolved props and
returning the render function (the emit capability is consumed by no
verified claim and is omitted). -/
structure Component where
  setup : Option (Props → RenderFn)

/-- A component-typed VNode: its `type` is a component definition;
`component` is the back-reference to the owning instance, by instance id. -/
structure CompVNode where
  comp : Component
  props : Props
  el : Ref
  component : Option Nat

/-- Modelled from the spec: `ComponentInternalInstance` (component.ts
absent) — tracked vnode, pending `next`, resolved props, render function,
current subtree, mount flag. The `effect` and `update` fields are realized
by `componentUpdateFn` itself (spec §4.1: `run()` invokes the computation,
and `update := effect.run`). `id` is what `component` back-references
store. -/
structure Instance where
  id : Nat
  vnode : CompVNode
  next : Option CompVNode
  props : Props
  render : Option RenderFn
  subTree : Option VNode
  isMounted : Bool

/-- Modelled from the spec: `createComponentInstance` (component.ts absent)
— fresh instance state for a component VNode, not yet mounted; the source
also stores the instance on `initialVNode.component`, recorded here by id. -/
def createComponentInstance (id : Nat) (vnode : CompVNode) : Instance :=
  { id := id
    vnode := { vnode with component := some id }
    next := none
    props := []
    render := none
    subTree := none
    isMounted := false }

/-- Modelled from the spec: `initProps` (componentProps.ts absent) — resolve
the instance's initial props from the vnode's prop set. -/
def initProps (inst : Instance) (rawProps : Props) : Instance :=
  { inst with props := rawProps }

/-- Modelled from the spec: the merge performed by `updateProps`
(componentProps.ts absent) — new prop values are merged into the existing
props object in place: keys already present are overwritten, fresh keys are
appended, and the existing key iteration order is preserved. -/
def mergeProps (old nw : Props) : Props :=
  old.map (fun kv =>
    match nw.lookup kv.1 with
    | some v => (kv.1, v)
    | none => kv)
  ++ nw.filter (fun kv => (old.lookup kv.1).isNone)

/-- `componentUpdateFn` of part_000 (the computation wrapped by the
instance's render effect). `initialVNode` aliases `instance.vnode` — the
source's `createComponentInstance` stores the very vnode it is given — so
`initialVNode.el = subTree.el` is modelled by updating `inst.vnode.el`.
Invoking an absent render function is a JS TypeError, modelled as `.error`
(nothing catches it in the source, so the `Except` propagates to the
caller). On the patch path: if `next` is pending, carry the host reference
and the instance reference onto it, make it the tracked vnode, clear `next`
and update the props in place; then re-render, patch the old subtree against
the new one with the old subtree's real current host parent as container
(`hostParentNode(prevTree.el!)!`), store the new subtree and propagate its
`el` onto the tracked vnode (`next.el = nextTree.el`, where `next` aliases
`instance.vnode` on both branches). -/
def componentUpdateFn (inst : Instance) (container : Ref) (h : Host) :
    Except String (Instance × Host × List HostOp) :=
  match inst.render with
  | none => .error "render is not a function"
  | some render =>
    if !inst.isMounted then
      -- mount process
      let subTree := normalizeVNode (render inst.props)
      let r := patch none subTree container h
      .ok ({ inst with
              subTree := some r.1
              isMounted := true
              vnode := { inst.vnode with el := r.1.el } },
            r.2.1, r.2.2)
    else
      -- patch process
      let inst1 :=
        match inst.next with
        | some nxt =>
            let nxt := { nxt with el := inst.vnode.el, component := some inst.id }
            { inst with
                vnode := nxt
                next := none
                props := mergeProps inst.props nxt.props }
        | none => inst
      match inst1.subTree with
      | none => .error "subTree is not mounted"
      | some prevTree =>
        let nextTree := normalizeVNode (render inst1.props)
        let r := patch (some prevTree) nextTree (h.parentNode prevTree.el) h
        .ok ({ inst1 with
                subTree := some r.1
                vnode := { inst1.vnode with el := r.1.el } },
              r.2.1, r.2.2)

/-- `setupRenderEffect` of part_000; the effect part is modelled from the
spec (reactivity module absent): the instance's effect wraps
`componentUpdateFn`, `update := effect.run`, and `run()` invokes the
computation — so wiring the effect and invoking `update()` once is exactly
one invocation of `componentUpdateFn`. -/
def setupRenderEffect (inst : Instance) (container : Ref) (h : Host) :
    Except String (Instance × Host × List HostOp) :=
  componentUpdateFn inst container h

/-- `mountComponent` of part_000: create the instance (attaching it to
`initialVNode.component`), resolve the initial props with `initProps`,
obtain the render function from `setup` when the definition provides one
(otherwise the instance keeps no render function), then run
`setupRenderEffect`. `id` is the fresh instance id. -/
def mountComponent (id : Nat) (initialVNode : CompVNode) (container : Ref)
    (h : Host) : Except String (Instance × Host × List HostOp) :=
  let inst := createComponentInstance id initialVNode
  let inst := initProps inst inst.vnode.props
  let inst :=
    match initialVNode.comp.setup with
    | some s => { inst with render := some (s inst.props) }
    | none => inst
  setupRenderEffect inst container h

/-- `updateComponent` of part_000: recover the existing instance via the old
vnode's back-reference and attach it to the new vnode
(`n2.component = n1.component`), store `n2` as the instance's pending
`next`, and invoke the instance's update trigger (one run of
`componentUpdateFn`; the captured mount container is not consulted on the
patch path). The caller passes the instance `inst` designated by the
`n1.component` back-reference. -/
def updateComponent (n1 n2 : CompVNode) (inst : Instance) (container : Ref)
    (h : Host) : Except String (Instance × Host × List HostOp) :=
  let n2a := { n2 with component := n1.component }
  let inst1 := { inst with next := some n2a }
  componentUpdateFn inst1 container h

/-!
## Helper lemmas
-/

/-- List-style induction for `VNodeList` (its auto-generated recursor is the
mutual one over `VNode` and `VNodeList`). -/
theorem VNodeList.inductionOn {motive : VNodeList → Prop}
    (l : VNodeList) (nil : motive .nil)
    (cons : ∀ c t, motive t → motive (.cons c t)) : motive l :=
  match l with
  | .nil => nil
  | .cons c t => cons c t (t.inductionOn nil cons)

/-- One step of `patchChildren`, written exactly as the source loop body:
normalize the current new child, patch it against the current old child
(`c1[i]`, the head of the remaining old children), continue on the tails. -/
theorem patchChildren_cons (c1 : VNodeList) (c : VNode) (cs : VNodeList)
    (container : Ref) (h : Host) :
    patchChildren c1 (.cons c cs) container h =
      (let r := patch c1.head? (normalizeVNode c) container h
       let rs := patchChildren c1.rest cs container r.2.1
       (.cons r.1 rs.1, rs.2.1, r.2.2 ++ rs.2.2)) := by
  cases c <;> rfl

/-- One step of `mountChildren`, written exactly as the source loop body. -/
theorem mountChildren_cons (c : VNode) (cs : VNodeList) (container : Ref) (h : Host) :
    mountChildren (.cons c cs) container h =
      (let r := patch none (normalizeVNode c) container h
       let rs := mountChildren cs container r.2.1
       (.cons r.1 rs.1, rs.2.1, r.2.2 ++ rs.2.2)) := by
  cases c <;> rfl

/-- Index zero reads the head. -/
theorem get?_zero_eq_head (l : VNodeList) : l.get? 0 = l.head? := by
  cases l <;> rfl

/-- Index `i + 1` of a list is index `i` of its tail. -/
theorem get?_succ_eq_rest (l : VNodeList) (i : Nat) :
    l.get? (i + 1) = l.rest.get? i := by
  cases l <;> rfl

/-- Shifting the enumeration start by one is the same as dropping the first
old child: the positional walk only ever pairs equal offsets. -/
theorem positionalGo_shift (cs : VNodeList) (c1 : VNodeList) (i : Nat)
    (container : Ref) (h : Host) :
    positionalGo c1 (cs.enumFrom (i + 1)) container h =
      positionalGo c1.rest (cs.enumFrom i) container h := by
  induction cs using VNodeList.inductionOn generalizing i h with
  | nil => rfl
  | cons c t ih =>
      simp only [VNodeList.enumFrom, positionalGo]
      rw [get?_succ_eq_rest]
      simp only [ih]

/-- The recursive `patchChildren` is exactly the indexed positional walk the
spec describes. -/
theorem patchChildren_eq_positionalPatch (c1 c2 : VNodeList) (container : Ref)
    (h : Host) :
    patchChildren c1 c2 container h = positionalPatch c1 c2 container h := by
  induction c2 using VNodeList.inductionOn generalizing c1 h with
  | nil => rfl
  | cons c cs ih =>
      rw [patchChildren_cons]
      show _ = positionalGo c1 (VNodeList.enumFrom 0 (.cons c cs)) container h
      simp only [VNodeList.enumFrom, positionalGo]
      rw [get?_zero_eq_head, positionalGo_shift]
      have ih2 : ∀ (c1 : VNodeList) (h : Host),
          patchChildren c1 cs container h =
            positionalGo c1 (cs.enumFrom 0) container h := fun c1 h => ih c1 h
      simp only [ih2]

/-- `patchChildren` never looks at old children beyond the length of the new
child list: truncating the old list there changes nothing. -/
theorem patchChildren_take (c2 c1 : VNodeList) (container : Ref) (h : Host) :
    patchChildren (VNodeList.take c2.length c1) c2 container h =
      patchChildren c1 c2 container h := by
  induction c2 using VNodeList.inductionOn generalizing c1 h with
  | nil => cases c1 <;> rfl
  | cons c cs ih =>
      cases c1 with
      | nil =>
          show patchChildren VNodeList.nil (.cons c cs) container h = _
          rfl
      | cons a t =>
          show patchChildren (.cons a (VNodeList.take cs.length t)) (.cons c cs) container h = _
          rw [patchChildren_cons, patchChildren_cons]
          simp only [VNodeList.head?, VNodeList.rest]
          simp only [ih]

/-- The prop loop fires exactly on the new keys whose value differs from the
old prop set (an absent old key differs from every value). -/
theorem patchProps_eq_filter (el : Ref) (p1 p2 : Props) :
    patchProps el p1 p2 =
      (p2.filter (fun kv => p1.lookup kv.1 != some kv.2)).map
        (fun kv => HostOp.patchProp el kv.1 kv.2) := by
  induction p2 with
  | nil => rfl
  | cons kv rest ih =>
      obtain ⟨k, v⟩ := kv
      rw [patchProps, ih]
      by_cases hk : p1.lookup k = some v
      · simp [hk]
      · simp [hk]

/-- A child array weighs at least one. -/
theorem sizeOf_vnodelist_pos (t : VNodeList) : 0 < sizeOf t := by
  cases t <;> simp

/-- Normalization grows a node by at most one (the fresh `el := none` slot of
the Text wrapper around a raw value). -/
theorem sizeOf_normalizeVNode_le (c : VNode) :
    sizeOf (normalizeVNode c) ≤ 1 + sizeOf c := by
  cases c <;> simp [normalizeVNode] <;> omega

/-- One step of the earlier renderer's `patchChildren`. -/
theorem early_patchChildren_cons (c1 : VNodeList) (c : VNode) (cs : VNodeList)
    (container : Ref) (h : Host) :
    Early.patchChildren c1 (.cons c cs) container h =
      (let r := Early.patch c1.head? (normalizeVNode c) container h
       let rs := Early.patchChildren c1.rest cs container r.2.1
       (.cons r.1 rs.1, rs.2.1, r.2.2 ++ rs.2.2)) := by
  cases c <;> rfl

/-- One step of the earlier renderer's `mountChildren`. -/
theorem early_mountChildren_cons (c : VNode) (cs : VNodeList) (container : Ref)
    (h : Host) :
    Early.mountChildren (.cons c cs) container h =
      (let r := Early.patch none (normalizeVNode c) container h
       let rs := Early.mountChildren cs container r.2.1
       (.cons r.1 rs.1, rs.2.1, r.2.2 ++ rs.2.2)) := by
  cases c <;> rfl

mutual

/-- The two renderers emit identical results and host-operation traces: the
dispatch difference only concerns unnormalized raw values, where both
embeddings are no-ops (the earlier renderer would fault in JS there; no
normalizing caller reaches that branch). -/
theorem early_patch_eq (n1 : Option VNode) (n2 : VNode) (c : Ref) (h : Host) :
    Early.patch n1 n2 c h = patch n1 n2 c h :=
  match n2, n1 with
  | .text _ _, _ => rfl
  | .raw _, none => rfl
  | .raw _, some _ => rfl
  | .elem t p cs e, none => by
      show (let r := hostCreateElement t h
            let rc := Early.mountChildren cs (some r.1) r.2.1
            let propOps := p.map (fun kv => HostOp.patchProp (some r.1) kv.1 kv.2)
            let ri := hostInsert (some r.1) c rc.2.1
            ((VNode.elem t p rc.1 (some r.1) : VNode), ri.1,
              r.2.2 ++ rc.2.2 ++ propOps ++ ri.2)) =
           (let r := hostCreateElement t h
            let rc := mountChildren cs (some r.1) r.2.1
            let propOps := p.map (fun kv => HostOp.patchProp (some r.1) kv.1 kv.2)
            let ri := hostInsert (some r.1) c rc.2.1
            ((VNode.elem t p rc.1 (some r.1) : VNode), ri.1,
              r.2.2 ++ rc.2.2 ++ propOps ++ ri.2))
      dsimp only
      rw [early_mountChildren_eq cs (some (hostCreateElement t h).1) (hostCreateElement t h).2.1]
  | .elem t p cs e, some m => by
      show (let el := m.el
            let rc := Early.patchChildren m.childList cs el h
            let propOps := patchProps el m.propsOf p
            ((VNode.elem t p rc.1 el : VNode), rc.2.1, rc.2.2 ++ propOps)) =
           (let el := m.el
            let rc := patchChildren m.childList cs el h
            let propOps := patchProps el m.propsOf p
            ((VNode.elem t p rc.1 el : VNode), rc.2.1, rc.2.2 ++ propOps))
      dsimp only
      rw [early_patchChildren_eq m.childList cs m.el h]
termination_by sizeOf n2
decreasing_by
  all_goals simp_wf
  all_goals omega

/-- The two renderers' `mountChildren` agree. -/
theorem early_mountChildren_eq (cs : VNodeList) (container : Ref) (h : Host) :
    Early.mountChildren cs container h = mountChildren cs container h :=
  match cs with
  | .nil => rfl
  | .cons c t => by
      rw [early_mountChildren_cons, mountChildren_cons]
      dsimp only
      rw [early_patch_eq none (normalizeVNode c) container h]
      rw [early_mountChildren_eq t container
        (patch none (normalizeVNode c) container h).2.1]
termination_by sizeOf cs
decreasing_by
  all_goals simp_wf
  all_goals first
    | omega
    | (have h1 := sizeOf_normalizeVNode_le c
       have h2 := sizeOf_vnodelist_pos t
       omega)

/-- The two renderers' `patchChildren` agree. -/
theorem early_patchChildren_eq (c1 c2 : VNodeList) (container : Ref) (h : Host) :
    Early.patchChildren c1 c2 container h = patchChildren c1 c2 container h :=
  match c2 with
  | .nil => rfl
  | .cons c t => by
      rw [early_patchChildren_cons, patchChildren_cons]
      dsimp only
      rw [early_patch_eq c1.head? (normalizeVNode c) container h]
      rw [early_patchChildren_eq c1.rest t container
        (patch c1.head? (normalizeVNode c) container h).2.1]
termination_by sizeOf c2
decreasing_by
  all_goals simp_wf
  all_goals first
    | omega
    | (have h1 := sizeOf_normalizeVNode_le c
       have h2 := sizeOf_vnodelist_pos t
       omega)

end

/-!
## Claim theorems
-/

/-- Claim C1: patching an already-mounted Text position calls the host's
`setText` exactly once with the new payload when the payloads differ, and
performs no host operation at all when they are equal; either way the host
reference is carried forward from the old node. -/
theorem text_patch_minimality (s t : String) (e1 e2 c : Ref) (h : Host) :
    patch (some (.text s e1)) (.text t e2) c h =
      (.text t e1, h, if t = s then [] else [HostOp.setText e1 t]) := by
  show processText (some (.text s e1)) (.text t e2) c h = _
  simp only [processText, sameChildren, VNode.textPayload, VNode.el]
  by_cases hst : s = t
  · subst hst; simp
  · simp [hst]
    rw [if_neg (fun hts => hst hts.symm)]

/-- Claim C2: on an element patch, the host's `patchProp` is invoked exactly
for the keys of the new prop set whose value differs from the old prop set's
value at that key (an absent old key differs from every new value), in the
new prop set's key iteration order, after the children are patched; in
particular, old props id=x, class=c against new props id=x, class=d invoke
`patchProp` only for class. -/
theorem element_prop_patch_minimality :
    (∀ (t1 t2 : String) (p1 p2 : Props) (cs1 cs2 : VNodeList) (e1 e2 c : Ref) (h : Host),
      patch (some (.elem t1 p1 cs1 e1)) (.elem t2 p2 cs2 e2) c h =
        (let rc := patchChildren cs1 cs2 e1 h
         (.elem t2 p2 rc.1 e1, rc.2.1,
          rc.2.2 ++ (p2.filter (fun kv => p1.lookup kv.1 != some kv.2)).map
            (fun kv => HostOp.patchProp e1 kv.1 kv.2)))) ∧
    (∀ (e : Nat) (c : Ref) (h : Host),
      (patch (some (.elem "div" [("id", "x"), ("class", "c")] .nil (some e)))
        (.elem "div" [("id", "x"), ("class", "d")] .nil none) c h).2.2 =
      [HostOp.patchProp (some e) "class" "d"]) := by
  constructor
  · intro t1 t2 p1 p2 cs1 cs2 e1 e2 c h
    show (let el := VNode.el (.elem t1 p1 cs1 e1)
          let rc := patchChildren (VNode.childList (.elem t1 p1 cs1 e1)) cs2 el h
          let propOps := patchProps el (VNode.propsOf (.elem t1 p1 cs1 e1)) p2
          ((VNode.elem t2 p2 rc.1 el : VNode), rc.2.1, rc.2.2 ++ propOps)) = _
    simp only [VNode.el, VNode.childList, VNode.propsOf, patchProps_eq_filter]
  · intro e c h
    simp [patch, patchChildren, patchProps, List.lookup, VNode.el]

/-- Claim C3: on an element patch the children are reconciled purely
positionally: the trace is that of the indexed walk which, for each index of
the new child list in increasing (left-to-right) order, patches the
normalized new child at that index against the old child at the very same
index — no key- or identity-based matching exists. -/
theorem children_patched_positionally (t1 t2 : String) (p1 p2 : Props)
    (cs1 cs2 : VNodeList) (e1 e2 c : Ref) (h : Host) :
    patch (some (.elem t1 p1 cs1 e1)) (.elem t2 p2 cs2 e2) c h =
      (let rc := positionalPatch cs1 cs2 e1 h
       (.elem t2 p2 rc.1 e1, rc.2.1, rc.2.2 ++ patchProps e1 p1 p2)) := by
  show (let el := VNode.el (.elem t1 p1 cs1 e1)
        let rc := patchChildren (VNode.childList (.elem t1 p1 cs1 e1)) cs2 el h
        let propOps := patchProps el (VNode.propsOf (.elem t1 p1 cs1 e1)) p2
        ((VNode.elem t2 p2 rc.1 el : VNode), rc.2.1, rc.2.2 ++ propOps)) = _
  simp only [VNode.el, VNode.childList, VNode.propsOf,
    patchChildren_eq_positionalPatch]

/-- Claim C4: first-time mount of an element emits, in this order: one
`createElement` with the tag, then the trace of mounting every normalized
child (left-to-right, second conjunct) into the new element, then one
`patchProp` per prop in the prop set's own iteration order, and the single
`insert` of the element into the target parent comes last — children are in
place inside the element before it is inserted. -/
theorem element_mount_order :
    (∀ (tag : String) (props : Props) (cs : VNodeList) (e0 c : Ref) (h : Host),
      patch none (.elem tag props cs e0) c h =
        (let rc := mountChildren cs (some h.nextId) { h with nextId := h.nextId + 1 }
         (.elem tag props rc.1 (some h.nextId),
          { rc.2.1 with parentOf := (some h.nextId, c) :: rc.2.1.parentOf },
          HostOp.createElement h.nextId tag
            :: (rc.2.2
                ++ props.map (fun kv => HostOp.patchProp (some h.nextId) kv.1 kv.2)
                ++ [HostOp.insert (some h.nextId) c])))) ∧
    (∀ (c0 : VNode) (cs : VNodeList) (container : Ref) (h : Host),
      mountChildren (.cons c0 cs) container h =
        (let r := patch none (normalizeVNode c0) container h
         let rs := mountChildren cs container r.2.1
         (.cons r.1 rs.1, rs.2.1, r.2.2 ++ rs.2.2))) := by
  constructor
  · intro tag props cs e0 c h
    show (let r := hostCreateElement tag h
          let rc := mountChildren cs (some r.1) r.2.1
          let propOps := props.map (fun kv => HostOp.patchProp (some r.1) kv.1 kv.2)
          let ri := hostInsert (some r.1) c rc.2.1
          ((VNode.elem tag props rc.1 (some r.1) : VNode), ri.1,
            r.2.2 ++ rc.2.2 ++ propOps ++ ri.2)) = _
    simp only [hostCreateElement, hostInsert]
    rfl
  · intro c0 cs container h
    exact mountChildren_cons c0 cs container h

/-- Claim C5: the first run of a component instance's render effect
(`isMounted` false) invokes the render function obtained from `setup`,
normalizes its result into the instance's `subTree`, mounts it with
`patch(null, subTree, container)`, copies the resulting host reference onto
the owning component VNode, and sets `isMounted` to true. -/
theorem first_render_effect_mounts (id : Nat) (v : CompVNode) (c : Ref) (h : Host)
    (s : Props → RenderFn) (hs : v.comp.setup = some s) :
    mountComponent id v c h =
      (let subTree := normalizeVNode (s v.props v.props)
       let r := patch none subTree c h
       .ok ({ id := id
              vnode := { v with component := some id, el := r.1.el }
              next := none
              props := v.props
              render := some (s v.props)
              subTree := some r.1
              isMounted := true }, r.2.1, r.2.2)) := by
  simp only [mountComponent, hs, setupRenderEffect, componentUpdateFn,
    createComponentInstance, initProps]
  rfl

/-- Witness for claim C5: mounting a concrete component with a `setup`
produces exactly the mounted instance state the theorem describes. -/
theorem first_render_effect_mounts_witness :
    (CompVNode.mk ⟨some (fun _ _ => VNode.text "hi" none)⟩ [("p", "1")] none none).comp.setup =
        some (fun _ _ => VNode.text "hi" none) ∧
    mountComponent 7 ⟨⟨some (fun _ _ => VNode.text "hi" none)⟩, [("p", "1")], none, none⟩
        (some 0) ⟨5, []⟩ =
      (let subTree := normalizeVNode ((fun (_ : Props) (_ : Props) => VNode.text "hi" none)
          [("p", "1")] [("p", "1")])
       let r := patch none subTree (some 0) ⟨5, []⟩
       .ok ({ id := 7
              vnode := { CompVNode.mk ⟨some (fun _ _ => VNode.text "hi" none)⟩ [("p", "1")] none none
                          with component := some 7, el := r.1.el }
              next := none
              props := [("p", "1")]
              render := some ((fun _ _ => VNode.text "hi" none) [("p", "1")])
              subTree := some r.1
              isMounted := true }, r.2.1, r.2.2)) :=
  ⟨rfl, first_render_effect_mounts 7
    ⟨⟨some (fun _ _ => VNode.text "hi" none)⟩, [("p", "1")], none, none⟩
    (some 0) ⟨5, []⟩ (fun _ _ => VNode.text "hi" none) rfl⟩

/-- Claim C6: patching a mounted component VNode attaches the existing
instance to the new VNode, stores it as the pending `next` and runs the
update trigger, whose run carries the instance reference (and, transiently,
the old host reference) onto `next`, makes `next` the tracked vnode, clears
`next`, merges the new props into the instance props in place, and repatches
the old subtree against the freshly rendered one with the old subtree's real
current host parent (`parentNode`) as the container, finally propagating the
new subtree's host reference onto the tracked vnode. -/
theorem update_component_repatches (n1 n2 : CompVNode) (inst : Instance)
    (c : Ref) (h : Host) (r : RenderFn) (prev : VNode)
    (hr : inst.render = some r) (hm : inst.isMounted = true)
    (hs : inst.subTree = some prev) :
    updateComponent n1 n2 inst c h =
      (let newProps := mergeProps inst.props n2.props
       let nextTree := normalizeVNode (r newProps)
       let rp := patch (some prev) nextTree (h.parentNode prev.el) h
       .ok ({ id := inst.id
              vnode := { n2 with component := some inst.id, el := rp.1.el }
              next := none
              props := newProps
              render := some r
              subTree := some rp.1
              isMounted := true }, rp.2.1, rp.2.2)) := by
  simp only [updateComponent, componentUpdateFn, hr, hm, hs]
  rfl

/-- Witness for claim C6: updating a concrete mounted component instance
performs exactly the repatch the theorem describes. -/
theorem update_component_repatches_witness :
    (Instance.mk 3 ⟨⟨none⟩, [("a", "1")], some 5, some 3⟩ none [("a", "1")]
        (some (fun _ => VNode.text "x" none)) (some (VNode.text "x" (some 5))) true).render =
        some (fun _ => VNode.text "x" none) ∧
    (Instance.mk 3 ⟨⟨none⟩, [("a", "1")], some 5, some 3⟩ none [("a", "1")]
        (some (fun _ => VNode.text "x" none)) (some (VNode.text "x" (some 5))) true).isMounted = true ∧
    (Instance.mk 3 ⟨⟨none⟩, [("a", "1")], some 5, some 3⟩ none [("a", "1")]
        (some (fun _ => VNode.text "x" none)) (some (VNode.text "x" (some 5))) true).subTree =
        some (VNode.text "x" (some 5)) ∧
    updateComponent ⟨⟨none⟩, [("a", "1")], some 5, some 3⟩ ⟨⟨none⟩, [("a", "2")], none, none⟩
        (Instance.mk 3 ⟨⟨none⟩, [("a", "1")], some 5, some 3⟩ none [("a", "1")]
          (some (fun _ => VNode.text "x" none)) (some (VNode.text "x" (some 5))) true)
        (some 0) ⟨6, [(some 5, some 0)]⟩ =
      (let newProps := mergeProps [("a", "1")] [("a", "2")]
       let nextTree := normalizeVNode ((fun (_ : Props) => VNode.text "x" none) newProps)
       let rp := patch (some (VNode.text "x" (some 5))) nextTree
          (Host.parentNode ⟨6, [(some 5, some 0)]⟩ (VNode.el (VNode.text "x" (some 5))))
          ⟨6, [(some 5, some 0)]⟩
       .ok ({ id := 3
              vnode := { CompVNode.mk ⟨none⟩ [("a", "2")] none none
                          with component := some 3, el := rp.1.el }
              next := none
              props := newProps
              render := some (fun _ => VNode.text "x" none)
              subTree := some rp.1
              isMounted := true }, rp.2.1, rp.2.2)) :=
  ⟨rfl, rfl, rfl, update_component_repatches
    ⟨⟨none⟩, [("a", "1")], some 5, some 3⟩ ⟨⟨none⟩, [("a", "2")], none, none⟩
    (Instance.mk 3 ⟨⟨none⟩, [("a", "1")], some 5, some 3⟩ none [("a", "1")]
      (some (fun _ => VNode.text "x" none)) (some (VNode.text "x" (some 5))) true)
    (some 0) ⟨6, [(some 5, some 0)]⟩ (fun _ => VNode.text "x" none)
    (VNode.text "x" (some 5)) rfl rfl rfl⟩

/-- Claim C7: mounting a component whose definition has no `setup` leaves the
instance without a render function, and the mount attempt fails with the
error propagating to the caller (nothing in the source catches it). -/
theorem mount_without_setup_fails (id : Nat) (v : CompVNode) (c : Ref) (h : Host)
    (hs : v.comp.setup = none) :
    mountComponent id v c h = .error "render is not a function" := by
  simp only [mountComponent, hs, setupRenderEffect, componentUpdateFn,
    createComponentInstance, initProps]

/-- Witness for claim C7: a concrete component without `setup` fails to
mount. -/
theorem mount_without_setup_fails_witness :
    (CompVNode.mk ⟨none⟩ [] none none).comp.setup = none ∧
    mountComponent 0 ⟨⟨none⟩, [], none, none⟩ (some 0) ⟨0, []⟩ =
      .error "render is not a function" :=
  ⟨rfl, mount_without_setup_fails 0 ⟨⟨none⟩, [], none, none⟩ (some 0) ⟨0, []⟩ rfl⟩

/-- Claim C8: VNode child normalization is idempotent — normalizing an
already-normalized value yields a structurally equal result, with no double
wrapping of Text nodes. -/
theorem normalizeVNode_idempotent (v : VNode) :
    normalizeVNode (normalizeVNode v) = normalizeVNode v := by
  cases v <;> rfl

/-- Claim C9: on every tree of Text and string-tag element nodes (no
components), the earlier renderer's `patch` and the later renderer's `patch`
produce the same result, the same host state and the same host-operation
trace. -/
theorem early_renderer_agrees (n1 : Option VNode) (n2 : VNode) (c : Ref) (h : Host)
    (hn : n2.noRaw = true) :
    Early.patch n1 n2 c h = patch n1 n2 c h :=
  early_patch_eq n1 n2 c h

/-- Witness for claim C9: the two renderers emit the same trace mounting a
concrete element tree. -/
theorem early_renderer_agrees_witness :
    (VNode.elem "div" [("id", "app")] (.cons (.text "hi" none) .nil) none).noRaw = true ∧
    Early.patch none (VNode.elem "div" [("id", "app")] (.cons (.text "hi" none) .nil) none)
        (some 0) ⟨1, []⟩ =
      patch none (VNode.elem "div" [("id", "app")] (.cons (.text "hi" none) .nil) none)
        (some 0) ⟨1, []⟩ :=
  ⟨rfl, early_renderer_agrees none _ (some 0) ⟨1, []⟩ rfl⟩

/-- Claim C10: the host-adapter contract consumed by the engine has no
remove/detach operation (`HostOp` lists every operation the engine can emit),
and child patching walks only the new child list's indices: old children
beyond the new length are never read, so truncating them there leaves the
entire patch result — host operations included — unchanged, and the extra
trailing old children's host nodes receive no operation at all. -/
theorem extra_old_children_untouched (t1 t2 : String) (p1 p2 : Props)
    (cs1 cs2 : VNodeList) (e1 e2 c : Ref) (h : Host) :
    patch (some (.elem t1 p1 (VNodeList.take cs2.length cs1) e1))
        (.elem t2 p2 cs2 e2) c h =
      patch (some (.elem t1 p1 cs1 e1)) (.elem t2 p2 cs2 e2) c h := by
  show (let el := VNode.el (.elem t1 p1 (VNodeList.take cs2.length cs1) e1)
        let rc := patchChildren (VNode.childList (.elem t1 p1 (VNodeList.take cs2.length cs1) e1)) cs2 el h
        let propOps := patchProps el (VNode.propsOf (.elem t1 p1 (VNodeList.take cs2.length cs1) e1)) p2
        ((VNode.elem t2 p2 rc.1 el : VNode), rc.2.1, rc.2.2 ++ propOps)) = _
  simp only [VNode.el, VNode.childList, VNode.propsOf, patchChildren_take]
  show _ = (let el := VNode.el (.elem t1 p1 cs1 e1)
        let rc := patchChildren (VNode.childList (.elem t1 p1 cs1 e1)) cs2 el h
        let propOps := patchProps el (VNode.propsOf (.elem t1 p1 cs1 e1)) p2
        ((VNode.elem t2 p2 rc.1 el : VNode), rc.2.1, rc.2.2 ++ propOps))
  simp only [VNode.el, VNode.childList, VNode.propsOf]

end Chibivue
